import Mathlib

/-!
Verification development for the llm-simulator repository (Go).

Shallow embedding conventions:
* Go strings are modelled as `GoStr := List Char`, one element per rune.  The
  strings the simulator synthesizes and all literals it compares against are
  ASCII, where Go's byte-based `len` coincides with the rune count, so list
  length models both `len(s)` and `len([]rune(s))`.
* Go `int`/`int32` values are modelled as `Int` (no overflow; the simulator
  only ever handles small token/char counts) and `float64` values as `Rat`
  (exact arithmetic; every property proved below is insensitive to rounding,
  as it only relies on comparisons against the exact constants 0 and 1 and on
  coarse range bounds).
* Randomness and the environment are an explicit `Oracle`: each call of
  `mock.RandIntn` / `mock.RandFloat64` / `time` observed by the code receives
  one oracle value.  `RandIntn` at draw `d` returns `d % n`, which ranges over
  exactly the values `[0, n)` the Go generator can produce.
* Context cancellation is the oracle field `cancel : Nat -> Bool`: the k-th
  cancellation check performed by a handler observes `cancel k`.  Deadline
  expiry behaves identically in the code and is not modelled separately.
* Wall-clock latency is the oracle field `elapsedMs : Nat`; Go's monotonic
  clock guarantees `time.Since` is non-negative, which the `Nat` type encodes.
* Real durations of sleeps are unobservable in this untimed embedding; a
  cancellable sleep is observable only through the cancellation check that
  follows it, which is modelled.
-/

/-- A Go string, one list element per rune (see header conventions). -/
abbrev GoStr := List Char

namespace LlmSim

/-- Go `internal/mock.RandIntn`: `n <= 0` yields 0, otherwise a uniform value
in `[0, n)`.  The oracle draw `d` is reduced modulo `n`, which parameterizes
exactly the possible outcomes. -/
def RandIntn (d : ℕ) (n : Int) : Int :=
  if n ≤ 0 then 0 else (d : Int) % n

/-- Go `defaultInt(v, def)` from the gRPC service helpers: replaces only the
exact value 0, keeping negative values. -/
def defaultInt (v def_ : Int) : Int :=
  if v = 0 then def_ else v

/-- Go `unicode.IsSpace` restricted to the Unicode White_Space code points
(the full set Go uses). -/
def goIsSpace (c : Char) : Bool :=
  (0x09 ≤ c.toNat && c.toNat ≤ 0x0D) || c.toNat = 0x20 || c.toNat = 0x85 ||
  c.toNat = 0xA0 || c.toNat = 0x1680 ||
  (0x2000 ≤ c.toNat && c.toNat ≤ 0x200A) || c.toNat = 0x2028 ||
  c.toNat = 0x2029 || c.toNat = 0x202F || c.toNat = 0x205F || c.toNat = 0x3000

/-- Go `strings.TrimSpace`: drop leading and trailing white space. -/
def trimSpace (s : GoStr) : GoStr :=
  ((s.dropWhile goIsSpace).reverse.dropWhile goIsSpace).reverse

/-- Go `strings.ToLower` on the ASCII strings the config uses. -/
def goToLower (s : GoStr) : GoStr := s.map Char.toLower

/-- Go `internal/mock.trim(s, n)`: truncate to `n` runes, appending an
ellipsis rune when the string was cut. -/
def goTrim (s : GoStr) (n : ℕ) : GoStr :=
  if s.length ≤ n then s else s.take n ++ ['…']

/-- One hex digit as Go's `strconv` prints it (lower case). -/
def hexDigit (n : ℕ) : Char :=
  if n < 10 then Char.ofNat ('0'.toNat + n) else Char.ofNat ('a'.toNat + (n - 10))

/-- Escape of one rune inside Go's `%q` (`strconv.Quote`) output.  ASCII runes
are escaped exactly as Go does; printable non-ASCII runes are kept verbatim
as Go does.  (Go additionally hex-escapes the non-printable non-ASCII runes;
those are kept verbatim here — no theorem below depends on the echoed text
of such prompts, only on the fact that some prefix string is produced.) -/
def goQuoteChar (c : Char) : GoStr :=
  if c = '"' ∨ c = '\\' then ['\\', c]
  else if c = '\n' then ['\\', 'n']
  else if c = '\t' then ['\\', 't']
  else if c = '\r' then ['\\', 'r']
  else if c.toNat = 0x07 then ['\\', 'a']
  else if c.toNat = 0x08 then ['\\', 'b']
  else if c.toNat = 0x0B then ['\\', 'v']
  else if c.toNat = 0x0C then ['\\', 'f']
  else if c.toNat < 0x20 ∨ c.toNat = 0x7F then
    ['\\', 'x', hexDigit (c.toNat / 16), hexDigit (c.toNat % 16)]
  else [c]

/-- Go `fmt.Sprintf("%q", s)`: double quotes around the escaped runes. -/
def goQuote (s : GoStr) : GoStr :=
  '"' :: (s.flatMap goQuoteChar) ++ ['"']

/-- Go `internal/mock.ApproxTokens`: 4 runes are one token, rounding up. -/
def ApproxTokens (s : GoStr) : ℕ :=
  if s = [] then 0 else (s.length + 3) / 4

/- ### Output synthesizer (`internal/mock`, BuildOutput) -/

/-- First boilerplate sentence of `BuildOutput` (trailing space then newline,
exactly as in the source). -/
def boiler1 : GoStr :=
  ("This is a server-streaming mock response for benchmarking Kafka/worker throughput. \n").data

/-- Second boilerplate sentence of `BuildOutput`. -/
def boiler2 : GoStr :=
  ("It simulates latency, errors, and chunked deltas. \n").data

/-- The repeating filler token of `BuildOutput`. -/
def fillerTok : GoStr := ("[mock-token] ").data

/-- The echo acknowledgment `fmt.Sprintf("Mock answer for: %q\n\n", trim(prompt, 140))`. -/
def echoAck (prompt : GoStr) : GoStr :=
  ("Mock answer for: ").data ++ goQuote (goTrim prompt 140) ++ ("\n\n").data

/-- The `for len(s) < target { s += "[mock-token] " }` loop of `BuildOutput`,
with explicit fuel so the definition is structurally recursive (and hence
computable by the kernel).  Each iteration appends 13 characters, so `target`
iterations always reach the target; `padTo_length_ge` shows the fuel never
runs out for the wrapper `padTo`. -/
def padToF : ℕ → GoStr → ℕ → GoStr
  | 0, s, _ => s
  | fuel + 1, s, target =>
    if s.length < target then padToF fuel (s ++ fillerTok) target else s

/-- The padding loop of `BuildOutput` (see `padToF`). -/
def padTo (s : GoStr) (target : ℕ) : GoStr := padToF target s target

/-- The target-length computation of `BuildOutput`, line for line from the
source: debug size (0 meaning 512), overridden by strict token sizing
(`maxTokens*4`, substituting 128 for a non-positive budget), floored at 64,
then clamped to the cap (`maxChars`, with 0 meaning 4096 and negative
meaning no cap). -/
def buildTarget (maxTokens : Int) (strictTokenMode : Bool) (debugChars maxChars : Int) : Int :=
  let target0 := debugChars
  let target1 := if target0 = 0 then 512 else target0
  let mt := if strictTokenMode ∧ maxTokens ≤ 0 then 128 else maxTokens
  let target2 := if strictTokenMode then mt * 4 else target1
  let target3 := if target2 < 64 then 64 else target2
  let capv := if maxChars = 0 then 4096 else maxChars
  if capv > 0 ∧ target3 > capv then capv else target3

/-- Go `internal/mock.BuildOutput`: optional echo prefix, boilerplate, filler
padding to the target length, truncation to exactly the target length. -/
def BuildOutput (prompt : GoStr) (maxTokens : Int) (echoPrompt strictTokenMode : Bool)
    (debugChars maxChars : Int) : GoStr :=
  let target := buildTarget maxTokens strictTokenMode debugChars maxChars
  let pfix := if echoPrompt then echoAck prompt else []
  let s := pfix ++ boiler1 ++ boiler2
  (padTo s target.toNat).take target.toNat

/- ### Behavior configuration and request (internal/config, gen) -/

/-- The flat behavior configuration (`internal/config.Config`); Go zero
values are the field defaults, matching the sparse struct literals used by
the callers. -/
structure Config where
  baseDelayMs : Int := 0
  jitterMs : Int := 0
  perTokenDelayMs : Int := 0
  errorRate : ℚ := 0
  errorMode : GoStr := []
  defaultTokens : Int := 0
  chunkSize : Int := 0
  streamDelayMinMs : Int := 0
  streamDelayMaxMs : Int := 0
  echoPrompt : Bool := false
  randomize : Bool := false
  ttftMinMs : Int := 0
  ttftMaxMs : Int := 0
  tokensPerSec : Int := 0
  debugOutputChars : Int := 0
  maxOutputChars : Int := 0
  strictTokenMode : Bool := false

/-- A `ChatCompletionRequest`: model name, optional system prompt, prior
(role, content) messages, user prompt, requested token budget. -/
structure Request where
  model : GoStr := []
  systemPrompt : GoStr := []
  context : List (GoStr × GoStr) := []
  userPrompt : GoStr := []
  maxTokens : Int := 0

/-- Environment oracle: one field per random draw / clock reading a single
request can perform, plus the cancellation observations (`cancel k` is what
the k-th cancellation check of the handler sees).  `elapsedMs` is the
monotone-clock latency reading, non-negative by construction. -/
structure Oracle where
  failDraw : ℚ := 0
  errModeDraw : ℕ := 0
  jitterDraw : ℕ := 0
  ttftDraw : ℕ := 0
  pickFloat : ℚ := 0
  pickIntn : ℕ := 0
  chunkDraw : ℕ := 0
  cancel : ℕ → Bool := fun _ => false
  elapsedMs : ℕ := 0
  randID : GoStr := []
  created : Int := 0

/- ### Error injector (`shouldFail`, `pickGrpcErrorCode`) -/

/-- Go `shouldFail(rate)`: never for `rate <= 0`, always for `rate >= 1`,
else one uniform draw compared against the rate. -/
def shouldFail (rate draw : ℚ) : Bool :=
  if rate ≤ 0 then false
  else if 1 ≤ rate then true
  else decide (draw < rate)

/-- The two injected gRPC failure classes. -/
inductive GrpcCode where
  | resourceExhausted
  | internal
deriving DecidableEq, Repr

/-- Outcome of an aborted call: an injected gRPC status or the propagated
context cancellation. -/
inductive StreamErr where
  | statusErr (code : GrpcCode) (msg : GoStr)
  | ctxCanceled
deriving DecidableEq, Repr

/-- `codes.Code.String()` for the two injected classes. -/
def codeText : GrpcCode → GoStr
  | .resourceExhausted => ("ResourceExhausted").data
  | .internal => ("Internal").data

/-- `err.Error()` for the modelled errors (gRPC status formatting, and
`context.Canceled.Error()`). -/
def errText : StreamErr → GoStr
  | .statusErr c msg => ("rpc error: code = ").data ++ codeText c ++ (" desc = ").data ++ msg
  | .ctxCanceled => ("context canceled").data

/-- Message used by the injected errors. -/
def mockErrMsg : GoStr := ("mock error").data

/-- Go `pickGrpcErrorCode(mode)`: alias lists for the two classes, any other
mode (including "mixed") resolved by one even coin flip. -/
def pickGrpcErrorCode (mode : GoStr) (d : ℕ) : GrpcCode :=
  let m := goToLower (trimSpace mode)
  if m = ("429").data ∨ m = ("resource_exhausted").data ∨ m = ("rate_limit").data
      ∨ m = ("rate limit").data then .resourceExhausted
  else if m = ("500").data ∨ m = ("internal").data ∨ m = ("server_error").data then .internal
  else if RandIntn d 2 = 0 then .resourceExhausted
  else .internal

/- ### Target-token randomizer (`pickTargetTokens`) -/

/-- The `maxTokens <= 0` substitution shared by `pickTargetTokens` (and the
claim text): non-positive budgets become 128. -/
def substMaxTokens (maxTokens : Int) : Int :=
  if maxTokens ≤ 0 then 128 else maxTokens

/-- The `pickFrac` helper of `pickTargetTokens`: an integer drawn from the
fractional range `[minF, maxF]` of `maxTokens`, floored at 1.  Go truncates
`float64(maxTokens) * f` toward zero; the product is non-negative at every
call, so `Int.floor` models the conversion exactly. -/
def pickFrac (maxTokens : Int) (d : ℕ) (minF maxF : ℚ) : Int :=
  let minT0 : Int := ⌊(maxTokens : ℚ) * minF⌋
  let maxT0 : Int := ⌊(maxTokens : ℚ) * maxF⌋
  let minT := if minT0 < 1 then 1 else minT0
  let maxT := if maxT0 < minT then minT else maxT0
  if maxT = minT then minT
  else minT + RandIntn d (maxT - minT + 1)

/-- Go `pickTargetTokens(maxTokens, promptRunes)`: bucket probabilities
biased by prompt length, one uniform float draw `r` selecting the bucket,
then a `pickFrac` draw inside the bucket's fractional range. -/
def pickTargetTokens (maxTokens0 promptRunes : Int) (r : ℚ) (d : ℕ) : Int :=
  let maxTokens := substMaxTokens maxTokens0
  let pShort0 : ℚ := 0.58
  let pNormal0 : ℚ := 0.34
  let pLong0 : ℚ := 0.07
  let pMaxed0 : ℚ := 0.01
  let pShort1 :=
    if promptRunes > 1200 then pShort0 - 0.10
    else if promptRunes > 600 then pShort0 - 0.06
    else pShort0
  let pNormal :=
    if promptRunes > 1200 then pNormal0 + 0.06
    else if promptRunes > 600 then pNormal0 + 0.04
    else pNormal0
  let pLong :=
    if promptRunes > 1200 then pLong0 + 0.03
    else if promptRunes > 600 then pLong0 + 0.02
    else pLong0
  let pMaxed1 := if promptRunes > 1200 then pMaxed0 + 0.01 else pMaxed0
  let pShort := if pShort1 < 0.10 then 0.10 else pShort1
  let _pMaxed := if pMaxed1 < 0 then 0 else pMaxed1
  if r < pShort then pickFrac maxTokens d (5/100) (22/100)
  else if r < pShort + pNormal then pickFrac maxTokens d (22/100) (62/100)
  else if r < pShort + pNormal + pLong then pickFrac maxTokens d (62/100) (92/100)
  else pickFrac maxTokens d (92/100) 1

/- ### Prompt normalization (`buildPromptForTokens`) -/

/-- Go `buildPromptForTokens`: "[system]" block, then each non-empty
context message as a "[role]" block (empty roles become "unknown"), then
the "[user]" block. -/
def buildPromptForTokens (req : Request) : GoStr :=
  let sysPart :=
    if trimSpace req.systemPrompt ≠ [] then
      ("[system]\n").data ++ trimSpace req.systemPrompt ++ ("\n\n").data
    else []
  let ctxPart := req.context.foldl
    (fun acc m =>
      let role := trimSpace m.1
      let content := trimSpace m.2
      if role = [] ∧ content = [] then acc
      else
        acc ++ ("[").data ++ (if role = [] then ("unknown").data else role)
          ++ ("]\n").data ++ content ++ ("\n\n").data)
    []
  let userPart :=
    if trimSpace req.userPrompt ≠ [] then ("[user]\n").data ++ trimSpace req.userPrompt
    else []
  sysPart ++ ctxPart ++ userPart

/- ### Timing model (observable only through cancellation checks) -/

/-- Go `(s *MockLlmService).baseDelayMs`. -/
def baseDelayMs (cfg : Config) : Int := defaultInt cfg.baseDelayMs 0

/-- Go `(s *MockLlmService).jitterMs`: one uniform draw in `[0, jitter]`. -/
def jitterMs (cfg : Config) (o : Oracle) : Int :=
  let j := defaultInt cfg.jitterMs 0
  if j ≤ 0 then 0 else RandIntn o.jitterDraw (j + 1)

/-- Go `(s *MockLlmService).ttftMs`: uniform draw in `[min, max]`, each bound
substituting for the other when unset and min forced at most max. -/
def ttftMs (cfg : Config) (o : Oracle) : Int :=
  let minV := defaultInt cfg.ttftMinMs 0
  let maxV := defaultInt cfg.ttftMaxMs 0
  if minV ≤ 0 ∧ maxV ≤ 0 then 0
  else
    let minV2 := if minV ≤ 0 then maxV else minV
    let maxV2 := if maxV ≤ 0 then minV2 else maxV
    let maxV3 := if maxV2 < minV2 then minV2 else maxV2
    if maxV3 = minV2 then minV2 else minV2 + RandIntn o.ttftDraw (maxV3 - minV2 + 1)

/-- Go `(s *MockLlmService).tokensPerSec`. -/
def tokensPerSec (cfg : Config) : Int := defaultInt cfg.tokensPerSec 0

/-- The total simulated compute latency of the unary call (base + jitter +
TTFT + per-token overhead + generation time).  The sleep of this duration is
unobservable in the untimed embedding; the cancellation check after it is
modelled in `ChatCompletion`. -/
def unaryComputeMs (cfg : Config) (ct : Int) (o : Oracle) : Int :=
  let base := baseDelayMs cfg + jitterMs cfg o + ttftMs cfg o
  let withPerTok := base + defaultInt cfg.perTokenDelayMs 0 * ct
  if tokensPerSec cfg > 0 then withPerTok + ct * 1000 / tokensPerSec cfg else withPerTok

/- ### Chunk planner -/

/-- The chunk slices produced by the Go loop
`for i := 0; i < len(out); i += chunkSize` with `out[i:min(i+chunkSize, len)]`,
with explicit fuel (one unit per loop iteration; `out.length` units always
suffice since every iteration consumes at least one character).
The `cs = 0` guard is unreachable from the handlers, which always normalize
the chunk size to at least 1 (`grpcChunkSize_pos`); the Go loop is never
entered with a non-positive size. -/
def chunkLoopF : ℕ → GoStr → ℕ → List GoStr
  | 0, _, _ => []
  | fuel + 1, out, cs =>
    if cs = 0 ∨ out = [] then []
    else out.take cs :: chunkLoopF fuel (out.drop cs) cs

/-- The chunk plan (see `chunkLoopF`; the fuel `out.length` is adequate). -/
def chunkLoop (out : GoStr) (cs : ℕ) : List GoStr := chunkLoopF out.length out cs

/-- `ceil(n / cs)`, the number of chunks planned for output length `n`. -/
def numChunks (n cs : ℕ) : ℕ := (n + cs - 1) / cs

/- ### Stream events -/

/-- One `llmv1.ChatCompletionChunkResponse`; Go zero values are defaults. -/
structure Chunk where
  type : GoStr := []
  text : GoStr := []
  index : Int := 0
  finishReason : GoStr := []
  promptTokens : Int := 0
  completionTokens : Int := 0
  totalTokens : Int := 0
  latencyMs : Int := 0
deriving DecidableEq, Repr

/-- A content delta chunk as sent inside the stream loop. -/
def deltaChunk (text : GoStr) : Chunk :=
  { type := ("output_text.delta").data, text := text, index := 0 }

/-- The terminal done chunk sent after the last delta. -/
def doneChunk (pt ct lat : Int) : Chunk :=
  { type := ("output_text.done").data, text := [], index := 0,
    finishReason := ("stop").data, promptTokens := pt, completionTokens := ct,
    totalTokens := pt + ct, latencyMs := lat }

/-- The best-effort failed chunk sent by the deferred finalizer. -/
def failedChunk (reason : GoStr) : Chunk :=
  { type := ("failed").data, text := [], index := 0, finishReason := reason }

/- ### gRPC streaming state machine -/

/-- The delta-emission loop of `ChatCompletionStream`.  Each iteration
performs the top-of-loop `select` cancellation check (index `k`), sends the
delta, sleeps the inter-chunk gap, and re-checks cancellation (index `k+1`).
Returns the chunks sent and the error returned by the loop, `none` when the
loop ran to completion. -/
def streamLoopF : ℕ → GoStr → ℕ → (ℕ → Bool) → ℕ → List Chunk × Option StreamErr
  | 0, _, _, _, _ => ([], none)
  | fuel + 1, out, cs, cancel, k =>
    if cs = 0 ∨ out = [] then ([], none)
    else if cancel k then ([], some .ctxCanceled)
    else if cancel (k + 1) then ([deltaChunk (out.take cs)], some .ctxCanceled)
    else
      let r := streamLoopF fuel (out.drop cs) cs cancel (k + 2)
      (deltaChunk (out.take cs) :: r.1, r.2)

/-- The delta loop with its adequate fuel `out.length` (see `streamLoopF`). -/
def streamLoop (out : GoStr) (cs : ℕ) (cancel : ℕ → Bool) (k : ℕ) :
    List Chunk × Option StreamErr :=
  streamLoopF out.length out cs cancel k

/-- The normalized token budget of the gRPC handlers: non-positive request
budgets become `defaultInt(cfg.DefaultTokens, 128)`. -/
def grpcMaxTokens (cfg : Config) (req : Request) : Int :=
  if req.maxTokens ≤ 0 then defaultInt cfg.defaultTokens 128 else req.maxTokens

/-- The effective token budget: randomized via `pickTargetTokens` when
`cfg.Randomize` is set, otherwise the normalized budget. -/
def grpcEffTokens (cfg : Config) (req : Request) (o : Oracle) : Int :=
  if cfg.randomize then
    pickTargetTokens (grpcMaxTokens cfg req) ((buildPromptForTokens req).length : Int)
      o.pickFloat o.pickIntn
  else grpcMaxTokens cfg req

/-- The effective chunk size of `ChatCompletionStream`: configured size with
0 and non-positive values normalized to 12, then (when randomizing and the
size exceeds 1) varied by up to a third each way, floored at 1. -/
def grpcChunkSize (cfg : Config) (o : Oracle) : Int :=
  let c0 := defaultInt cfg.chunkSize 12
  let c1 := if c0 ≤ 0 then 12 else c0
  if cfg.randomize ∧ c1 > 1 then
    let j0 := c1 / 3
    let j := if j0 < 1 then 1 else j0
    let c2 := c1 - j + RandIntn o.chunkDraw (j * 2 + 1)
    if c2 < 1 then 1 else c2
  else c1

/-- The full synthesized output of a gRPC call. -/
def grpcOut (cfg : Config) (req : Request) (o : Oracle) : GoStr :=
  BuildOutput (buildPromptForTokens req) (grpcEffTokens cfg req o) cfg.echoPrompt
    cfg.strictTokenMode cfg.debugOutputChars cfg.maxOutputChars

/-- The body of `ChatCompletionStream` (everything before the deferred
finalizer runs): error injection first, the cancellable pre-delay (check
index 0, performed only when the pre-delay is positive), output synthesis,
then the delta loop (check indices from 1) and the terminal done chunk. -/
def streamBody (cfg : Config) (req : Request) (o : Oracle) :
    List Chunk × Option StreamErr :=
  if shouldFail cfg.errorRate o.failDraw then
    ([], some (.statusErr (pickGrpcErrorCode cfg.errorMode o.errModeDraw) mockErrMsg))
  else if 0 < baseDelayMs cfg + jitterMs cfg o + ttftMs cfg o ∧ o.cancel 0 then
    ([], some .ctxCanceled)
  else
    let out := grpcOut cfg req o
    let pt : Int := ApproxTokens (buildPromptForTokens req)
    let ct : Int := ApproxTokens out
    let r := streamLoop out (grpcChunkSize cfg o).toNat o.cancel 1
    match r.2 with
    | some e => (r.1, some e)
    | none => (r.1 ++ [doneChunk pt ct (o.elapsedMs : Int)], none)

/-- Go `ChatCompletionStream` including its deferred finalizer: whenever the
body returns a non-nil error — cancellation included — a best-effort failed
chunk carrying `err.Error()` is sent after everything the body sent. -/
def ChatCompletionStream (cfg : Config) (req : Request) (o : Oracle) :
    List Chunk × Option StreamErr :=
  let r := streamBody cfg req o
  match r.2 with
  | none => r
  | some e => (r.1 ++ [failedChunk (errText e)], some e)

/-- The texts of the content-delta events of a captured chunk trace. -/
def grpcDeltaTexts (l : List Chunk) : List GoStr :=
  l.filterMap fun c => if c.type = ("output_text.delta").data then some c.text else none

/- ### gRPC unary call -/

/-- A `llmv1.ChatCompletionResponse`. -/
structure Response where
  outputText : GoStr := []
  finishReason : GoStr := []
  promptTokens : Int := 0
  completionTokens : Int := 0
  totalTokens : Int := 0
  latencyMs : Int := 0
deriving DecidableEq, Repr

/-- Go `ChatCompletion` (unary): error injection first, synthesis and token
accounting, the cancellable compute sleep (one cancellation check, index 0),
then the single result. -/
def ChatCompletion (cfg : Config) (req : Request) (o : Oracle) :
    Except StreamErr Response :=
  if shouldFail cfg.errorRate o.failDraw then
    .error (.statusErr (pickGrpcErrorCode cfg.errorMode o.errModeDraw) mockErrMsg)
  else
    let prompt := buildPromptForTokens req
    let out := grpcOut cfg req o
    let pt : Int := ApproxTokens prompt
    let ct : Int := ApproxTokens out
    let _sleepMs := unaryComputeMs cfg ct o
    if o.cancel 0 then .error .ctxCanceled
    else .ok { outputText := out, finishReason := ("stop").data, promptTokens := pt,
               completionTokens := ct, totalTokens := pt + ct,
               latencyMs := (o.elapsedMs : Int) }

/- ### SSE front end (`serveChatCompletionSSE`, `ChatCompletionSSEHandler`)

The transport encoding (`data: <json>\n\n` framing, header writes and
flushes) is modelled at the event level: one `SSEItem` per `writeSSE` call
plus the literal `[DONE]` sentinel.  Writer failures are not modelled (the
claims under verification only concern well-behaved sinks). -/

/-- One serialized `mock.StreamChunk`.  The Go code always appends exactly
one choice, whose fields are inlined here. -/
structure SSEChunk where
  id : GoStr := []
  object : GoStr := []
  created : Int := 0
  model : GoStr := []
  index : Int := 0
  deltaContent : GoStr := []
  deltaRole : GoStr := []
  finishReason : Option GoStr := none
deriving DecidableEq, Repr

/-- One event written to the SSE stream: a JSON chunk or the `[DONE]`
sentinel. -/
inductive SSEItem where
  | chunk (c : SSEChunk)
  | doneMark
deriving DecidableEq, Repr

/-- The content loop of `serveChatCompletionSSE`: each iteration performs
the top-of-loop `select` cancellation check (index `k`), writes the content
part, and sleeps the gap (no re-check after the sleep in this path).
Returns the items written and whether the loop exited on cancellation.
As with `chunkLoop`, `cs = 0` is a guard for a case the Go loop is never
entered with by the theorems below. -/
def sseLoopF (base : SSEChunk) : ℕ → GoStr → ℕ → (ℕ → Bool) → ℕ → List SSEItem × Bool
  | 0, _, _, _, _ => ([], false)
  | fuel + 1, content, cs, cancel, k =>
    if cs = 0 ∨ content = [] then ([], false)
    else if cancel k then ([], true)
    else
      let r := sseLoopF base fuel (content.drop cs) cs cancel (k + 1)
      (SSEItem.chunk { base with deltaContent := content.take cs } :: r.1, r.2)

/-- The SSE content loop with its adequate fuel `content.length` (see
`sseLoopF`). -/
def sseLoop (base : SSEChunk) (content : GoStr) (cs : ℕ) (cancel : ℕ → Bool) (k : ℕ) :
    List SSEItem × Bool :=
  sseLoopF base content.length content cs cancel k

/-- The effective chunk size of the SSE path: the caller-provided parameter
with 0 falling back to `defaultInt(cfg.ChunkSize, 12)`, then the same
randomization as the gRPC path.  Unlike the gRPC path there is no final
`<= 0` normalization. -/
def sseChunkSize (cfg : Config) (chunkParam : Int) (o : Oracle) : Int :=
  let cs0 := defaultInt chunkParam (defaultInt cfg.chunkSize 12)
  if cfg.randomize ∧ cs0 > 1 then
    let j0 := cs0 / 3
    let j := if j0 < 1 then 1 else j0
    let c2 := cs0 - j + RandIntn o.chunkDraw (j * 2 + 1)
    if c2 < 1 then 1 else c2
  else cs0

/-- Go `serveChatCompletionSSE`: role event first, the content loop, and —
only when the loop was not cancelled — the terminal finish event followed by
the `[DONE]` sentinel.  Note this path passes `maxTokens` to `BuildOutput`
unnormalized and performs no error injection. -/
def serveChatCompletionSSE (cfg : Config) (model prompt : GoStr)
    (maxTokens chunkParam : Int) (o : Oracle) : List SSEItem :=
  let base : SSEChunk :=
    { id := ("chatcmpl_mock_").data ++ o.randID,
      object := ("chat.completion.chunk").data, created := o.created, model := model }
  let cs := sseChunkSize cfg chunkParam o
  let content := BuildOutput prompt maxTokens cfg.echoPrompt cfg.strictTokenMode
    cfg.debugOutputChars cfg.maxOutputChars
  let first := SSEItem.chunk { base with deltaRole := ("assistant").data }
  let r := sseLoop base content cs.toNat o.cancel 0
  if r.2 then first :: r.1
  else
    first :: r.1 ++
      [SSEItem.chunk { base with finishReason := some (("stop").data) }, SSEItem.doneMark]

/-- Go `strconv.Atoi` on the query strings the handler accepts (optional
sign, decimal digits; `none` on empty or malformed input; the int64 overflow
error is not modelled). -/
def goAtoi (s : GoStr) : Option Int :=
  match s with
  | [] => none
  | c :: rest =>
    let digits := if c = '+' ∨ c = '-' then rest else s
    if digits ≠ [] ∧ digits.all Char.isDigit then
      let n : Int := digits.foldl (fun a d => a * 10 + ((d.toNat : Int) - ('0'.toNat : Int))) 0
      some (if c = '-' then -n else n)
    else none

/-- Query parameters of the SSE handler; `r.URL.Query().Get` yields the
empty string for an absent parameter, so absence is the empty string. -/
structure SSEQuery where
  model : GoStr := []
  prompt : GoStr := []
  maxTokensParam : GoStr := []
  chunkSizeParam : GoStr := []

/-- Observable HTTP outcome of the handler: response status and the SSE
events written. -/
structure HTTPResult where
  status : Int
  items : List SSEItem
deriving DecidableEq

/-- Go `ChatCompletionSSEHandler`: defaults the model name, rejects an
empty/absent prompt with status 400 before writing any stream data, parses
the optional `max_tokens` and `chunk_size` overrides, and delegates to
`serveChatCompletionSSE` (status 200). -/
def ChatCompletionSSEHandler (cfg : Config) (q : SSEQuery) (o : Oracle) : HTTPResult :=
  let model := if q.model = [] then ("mock-sse").data else q.model
  if q.prompt = [] then { status := 400, items := [] }
  else
    let maxTokens :=
      if q.maxTokensParam ≠ [] then
        match goAtoi q.maxTokensParam with
        | some n => n
        | none => cfg.defaultTokens
      else cfg.defaultTokens
    let chunkSize :=
      if q.chunkSizeParam ≠ [] then
        match goAtoi q.chunkSizeParam with
        | some n => n
        | none => cfg.chunkSize
      else cfg.chunkSize
    { status := 200, items := serveChatCompletionSSE cfg model q.prompt maxTokens chunkSize o }

/-- The texts of the content events of a captured SSE trace (the events
carrying a non-empty `delta.content`, i.e. neither the role marker, nor the
finish event, nor the sentinel). -/
def sseContentTexts (l : List SSEItem) : List GoStr :=
  l.filterMap fun it =>
    match it with
    | .chunk c => if c.deltaContent = [] then none else some c.deltaContent
    | .doneMark => none

/- ### Spec-side formula for the output length (claim C4's words) -/

/-- The output length exactly as the specification states it:
`clamp(target, floor=64, ceiling=maxChars)` where the target is `debugChars`
if non-zero else 512, or `maxTokens*4` in strict token mode (substituting
128 for a non-positive budget); the ceiling defaults to 4096 when `maxChars`
is 0 and is absent when `maxChars` is negative.  Stated from the claim text,
to be compared against the `BuildOutput` implementation. -/
def specTargetLength (strictTokenMode : Bool) (debugChars maxTokens maxChars : Int) : Int :=
  let target :=
    if strictTokenMode then (if maxTokens ≤ 0 then 128 else maxTokens) * 4
    else if debugChars ≠ 0 then debugChars else 512
  let floored := max target 64
  if maxChars = 0 then min floored 4096
  else if 0 < maxChars then min floored maxChars
  else floored

/- ### Concrete instances used by counterexamples and witnesses -/

/-- Oracle with all draws zero and no cancellation. -/
def o0 : Oracle := {}

/-- Empty request. -/
def req0 : Request := {}

/-- Config for the cross-protocol counterexample: strict token sizing with a
configured default budget of 42 tokens. -/
def cfgC1x : Config := { defaultTokens := 42, chunkSize := 7, strictTokenMode := true }

/-- Request with a zero (unset) token budget. -/
def reqC1x : Request := { userPrompt := ("p").data, maxTokens := 0 }

/-- Config for the cross-protocol agreement witness (from the SSE alignment
test). -/
def cfgC1w : Config := { chunkSize := 7, strictTokenMode := true, maxOutputChars := 256 }

/-- Request for the cross-protocol agreement witness. -/
def reqC1w : Request := { userPrompt := ("sse prompt").data, maxTokens := 10 }

/-- Config for the cancellation scenarios: strict sizing, 16-char chunks. -/
def cfgC2 : Config := { chunkSize := 16, strictTokenMode := true }

/-- Request for the cancellation scenarios (64-char output, 4 chunks). -/
def reqC2 : Request := { userPrompt := ("cancel me").data, maxTokens := 16 }

/-- Oracle cancelling from the second cancellation check on (i.e. after the
first delta chunk has been sent). -/
def oC2 : Oracle := { cancel := fun k => decide (2 ≤ k) }

/-- Config for the chunk-plan witness (stream test configuration). -/
def cfgC3w : Config := { chunkSize := 7, strictTokenMode := true }

/-- Request for the chunk-plan witness. -/
def reqC3w : Request :=
  { systemPrompt := ("sys").data, userPrompt := ("stream this content").data, maxTokens := 10 }

/-- Config for the mid-stream cancellation witness. -/
def cfgC5 : Config := { chunkSize := 16, strictTokenMode := true }

/-- Request for the mid-stream cancellation witness. -/
def reqC5 : Request := { userPrompt := ("cancel me too").data, maxTokens := 16 }

/-- Oracle for the mid-stream cancellation witness. -/
def oC5 : Oracle := { cancel := fun k => decide (2 ≤ k) }

/-- Config that always injects an internal error. -/
def cfgC6a : Config := { errorRate := 1, errorMode := ("500").data }

/-- Config that never injects an error. -/
def cfgC6b : Config := { errorRate := 0, errorMode := ("mixed").data }

/-- Config of the unary scenario: strict token mode, everything else at its
zero default (no delays, no error injection, default output cap). -/
def cfgC7 : Config := { strictTokenMode := true }

/-- The unary scenario request. -/
def reqC7 : Request :=
  { model := ("gpt-mock").data, userPrompt := ("tell me a joke").data, maxTokens := 12 }

/-- Query with an absent prompt parameter. -/
def qEmptyPrompt : SSEQuery := { model := ("m").data, maxTokensParam := ("12").data }

/- ## Theorems -/

/- ### Padding and output length -/

theorem padToF_length_ge (fuel : ℕ) :
    ∀ s : GoStr, ∀ t : ℕ, t ≤ s.length + 13 * fuel → t ≤ (padToF fuel s t).length := by
  induction fuel with
  | zero =>
    intro s t hf
    simp only [padToF]
    omega
  | succ n ih =>
    intro s t hf
    simp only [padToF]
    split_ifs with h
    · apply ih
      have hlen : fillerTok.length = 13 := rfl
      simp only [List.length_append, hlen]
      omega
    · omega

theorem padTo_length_ge (s : GoStr) (t : ℕ) : t ≤ (padTo s t).length := by
  unfold padTo
  exact padToF_length_ge t s t (by omega)

/- ### Adequate fuel is irrelevant, and one-step unfolding equations -/

theorem chunkLoopF_congr (out : GoStr) (f1 f2 cs : ℕ)
    (h1 : out.length ≤ f1) (h2 : out.length ≤ f2) :
    chunkLoopF f1 out cs = chunkLoopF f2 out cs := by
  have hnil : ∀ f c, chunkLoopF f ([] : GoStr) c = [] := by
    intro f c
    cases f <;> simp [chunkLoopF]
  cases f1 with
  | zero =>
    have hout : out = [] := by
      cases out
      · rfl
      · simp at h1
    subst hout
    rw [hnil, hnil]
  | succ n =>
    cases f2 with
    | zero =>
      have hout : out = [] := by
        cases out
        · rfl
        · simp at h2
      subst hout
      rw [hnil, hnil]
    | succ m =>
      by_cases hg : cs = 0 ∨ out = []
      · simp only [chunkLoopF, if_pos hg]
      · have hcs0 : cs ≠ 0 := (not_or.mp hg).1
        have hlen : 0 < out.length := List.length_pos.mpr (not_or.mp hg).2
        simp only [chunkLoopF, if_neg hg]
        congr 1
        exact chunkLoopF_congr (out.drop cs) n m cs
          (by simp only [List.length_drop]; omega)
          (by simp only [List.length_drop]; omega)
termination_by out.length
decreasing_by
  simp only [List.length_drop]
  omega

theorem chunkLoop_eq (out : GoStr) (cs : ℕ) :
    chunkLoop out cs
      = if cs = 0 ∨ out = [] then []
        else out.take cs :: chunkLoop (out.drop cs) cs := by
  unfold chunkLoop
  cases out with
  | nil => simp [chunkLoopF]
  | cons a tl =>
    by_cases hg : cs = 0 ∨ a :: tl = []
    · simp only [List.length_cons, chunkLoopF, if_pos hg]
    · have hcs0 : cs ≠ 0 := (not_or.mp hg).1
      simp only [List.length_cons, chunkLoopF, if_neg hg]
      congr 1
      exact chunkLoopF_congr ((a :: tl).drop cs) tl.length ((a :: tl).drop cs).length cs
        (by simp only [List.length_drop, List.length_cons]; omega) le_rfl

theorem streamLoopF_congr (out : GoStr) (f1 f2 cs : ℕ) (cancel : ℕ → Bool) (k : ℕ)
    (h1 : out.length ≤ f1) (h2 : out.length ≤ f2) :
    streamLoopF f1 out cs cancel k = streamLoopF f2 out cs cancel k := by
  have hnil : ∀ f c q, streamLoopF f ([] : GoStr) c cancel q = ([], none) := by
    intro f c q
    cases f <;> simp [streamLoopF]
  cases f1 with
  | zero =>
    have hout : out = [] := by
      cases out
      · rfl
      · simp at h1
    subst hout
    rw [hnil, hnil]
  | succ n =>
    cases f2 with
    | zero =>
      have hout : out = [] := by
        cases out
        · rfl
        · simp at h2
      subst hout
      rw [hnil, hnil]
    | succ m =>
      by_cases hg : cs = 0 ∨ out = []
      · simp only [streamLoopF, if_pos hg]
      · have hcs0 : cs ≠ 0 := (not_or.mp hg).1
        have hlen : 0 < out.length := List.length_pos.mpr (not_or.mp hg).2
        simp only [streamLoopF, if_neg hg]
        rw [streamLoopF_congr (out.drop cs) n m cs cancel (k + 2)
          (by simp only [List.length_drop]; omega)
          (by simp only [List.length_drop]; omega)]
termination_by out.length
decreasing_by
  simp only [List.length_drop]
  omega

theorem streamLoop_eq (out : GoStr) (cs : ℕ) (cancel : ℕ → Bool) (k : ℕ) :
    streamLoop out cs cancel k =
      if cs = 0 ∨ out = [] then ([], none)
      else if cancel k then ([], some .ctxCanceled)
      else if cancel (k + 1) then ([deltaChunk (out.take cs)], some .ctxCanceled)
      else (deltaChunk (out.take cs) :: (streamLoop (out.drop cs) cs cancel (k + 2)).1,
            (streamLoop (out.drop cs) cs cancel (k + 2)).2) := by
  unfold streamLoop
  cases out with
  | nil => simp [streamLoopF]
  | cons a tl =>
    by_cases hg : cs = 0 ∨ a :: tl = []
    · simp only [List.length_cons, streamLoopF, if_pos hg]
    · have hcs0 : cs ≠ 0 := (not_or.mp hg).1
      simp only [List.length_cons, streamLoopF, if_neg hg]
      rw [streamLoopF_congr ((a :: tl).drop cs) tl.length ((a :: tl).drop cs).length cs
        cancel (k + 2)
        (by simp only [List.length_drop, List.length_cons]; omega) le_rfl]

theorem sseLoopF_congr (base : SSEChunk) (content : GoStr) (f1 f2 cs : ℕ)
    (cancel : ℕ → Bool) (k : ℕ)
    (h1 : content.length ≤ f1) (h2 : content.length ≤ f2) :
    sseLoopF base f1 content cs cancel k = sseLoopF base f2 content cs cancel k := by
  have hnil : ∀ f c q, sseLoopF base f ([] : GoStr) c cancel q = ([], false) := by
    intro f c q
    cases f <;> simp [sseLoopF]
  cases f1 with
  | zero =>
    have hout : content = [] := by
      cases content
      · rfl
      · simp at h1
    subst hout
    rw [hnil, hnil]
  | succ n =>
    cases f2 with
    | zero =>
      have hout : content = [] := by
        cases content
        · rfl
        · simp at h2
      subst hout
      rw [hnil, hnil]
    | succ m =>
      by_cases hg : cs = 0 ∨ content = []
      · simp only [sseLoopF, if_pos hg]
      · have hcs0 : cs ≠ 0 := (not_or.mp hg).1
        have hlen : 0 < content.length := List.length_pos.mpr (not_or.mp hg).2
        simp only [sseLoopF, if_neg hg]
        rw [sseLoopF_congr base (content.drop cs) n m cs cancel (k + 1)
          (by simp only [List.length_drop]; omega)
          (by simp only [List.length_drop]; omega)]
termination_by content.length
decreasing_by
  simp only [List.length_drop]
  omega

theorem sseLoop_eq (base : SSEChunk) (content : GoStr) (cs : ℕ)
    (cancel : ℕ → Bool) (k : ℕ) :
    sseLoop base content cs cancel k =
      if cs = 0 ∨ content = [] then ([], false)
      else if cancel k then ([], true)
      else (SSEItem.chunk { base with deltaContent := content.take cs } ::
              (sseLoop base (content.drop cs) cs cancel (k + 1)).1,
            (sseLoop base (content.drop cs) cs cancel (k + 1)).2) := by
  unfold sseLoop
  cases content with
  | nil => simp [sseLoopF]
  | cons a tl =>
    by_cases hg : cs = 0 ∨ a :: tl = []
    · simp only [List.length_cons, sseLoopF, if_pos hg]
    · have hcs0 : cs ≠ 0 := (not_or.mp hg).1
      simp only [List.length_cons, sseLoopF, if_neg hg]
      rw [sseLoopF_congr base ((a :: tl).drop cs) tl.length ((a :: tl).drop cs).length cs
        cancel (k + 1)
        (by simp only [List.length_drop, List.length_cons]; omega) le_rfl]

theorem buildOutput_length (prompt : GoStr) (maxTokens : Int)
    (echoPrompt strictTokenMode : Bool) (debugChars maxChars : Int) :
    (BuildOutput prompt maxTokens echoPrompt strictTokenMode debugChars maxChars).length
      = (buildTarget maxTokens strictTokenMode debugChars maxChars).toNat := by
  unfold BuildOutput
  rw [List.length_take]
  exact Nat.min_eq_left (padTo_length_ge _ _)

theorem buildTarget_pos (maxTokens : Int) (strictTokenMode : Bool)
    (debugChars maxChars : Int) :
    1 ≤ buildTarget maxTokens strictTokenMode debugChars maxChars := by
  unfold buildTarget
  dsimp only
  split_ifs <;> omega

theorem buildOutput_ne_nil (prompt : GoStr) (maxTokens : Int)
    (echoPrompt strictTokenMode : Bool) (debugChars maxChars : Int) :
    BuildOutput prompt maxTokens echoPrompt strictTokenMode debugChars maxChars ≠ [] := by
  have h := buildOutput_length prompt maxTokens echoPrompt strictTokenMode debugChars maxChars
  have hp := buildTarget_pos maxTokens strictTokenMode debugChars maxChars
  intro hnil
  rw [hnil] at h
  simp only [List.length_nil] at h
  omega

/- ### Random draw bounds -/

theorem randIntn_nonneg (d : ℕ) (n : Int) : 0 ≤ RandIntn d n := by
  unfold RandIntn
  split_ifs with h
  · omega
  · exact Int.emod_nonneg _ (by omega)

theorem randIntn_lt (d : ℕ) (n : Int) (hn : 0 < n) : RandIntn d n < n := by
  unfold RandIntn
  rw [if_neg (by omega)]
  exact Int.emod_lt_of_pos _ hn

theorem randIntn_shift (d : ℕ) (a b : Int) (hab : a ≤ b) :
    a ≤ a + RandIntn d (b - a + 1) ∧ a + RandIntn d (b - a + 1) ≤ b := by
  have h1 := randIntn_nonneg d (b - a + 1)
  have h2 := randIntn_lt d (b - a + 1) (by omega)
  omega

/- ### Chunk-plan arithmetic -/

theorem numChunks_succ (n cs : ℕ) (hcs : cs ≠ 0) (hn : 0 < n) :
    numChunks n cs = numChunks (n - cs) cs + 1 := by
  unfold numChunks
  rcases le_or_lt n cs with h | h
  · have h1 : n - cs = 0 := by omega
    have h2 : n + cs - 1 = (n - 1) + cs := by omega
    have h3 : (n - 1) / cs = 0 := Nat.div_eq_of_lt (by omega)
    have h4 : (0 + cs - 1) / cs = 0 := Nat.div_eq_of_lt (by omega)
    rw [h1, h2, Nat.add_div_right _ (Nat.pos_of_ne_zero hcs), h3, h4]
  · have hpos := Nat.pos_of_ne_zero hcs
    have h2 : n + cs - 1 = n - 1 - cs + cs + cs := by omega
    have h3 : n - cs + cs - 1 = n - 1 - cs + cs := by omega
    rw [h2, h3, Nat.add_div_right _ hpos, Nat.add_div_right _ hpos]

theorem chunkLoop_flatten (out : GoStr) (cs : ℕ) (hcs : cs ≠ 0) :
    (chunkLoop out cs).flatten = out := by
  rw [chunkLoop_eq]
  split
  · next h =>
    rcases h with h | h
    · exact absurd h hcs
    · simp [h]
  · next h =>
    simp only [List.flatten_cons]
    rw [chunkLoop_flatten (out.drop cs) cs hcs]
    exact List.take_append_drop cs out
termination_by out.length
decreasing_by
  simp only [List.length_drop]
  push_neg at *
  rename_i hh
  have h1 : 0 < out.length := List.length_pos.mpr hh.2
  omega

theorem chunkLoop_length (out : GoStr) (cs : ℕ) (hcs : cs ≠ 0) :
    (chunkLoop out cs).length = numChunks out.length cs := by
  rw [chunkLoop_eq]
  split
  · next h =>
    rcases h with h | h
    · exact absurd h hcs
    · rw [h]
      simp only [List.length_nil, numChunks]
      rw [Nat.div_eq_of_lt (by omega)]
  · next h =>
    push_neg at h
    simp only [List.length_cons]
    rw [chunkLoop_length (out.drop cs) cs hcs, List.length_drop,
      numChunks_succ out.length cs hcs (List.length_pos.mpr h.2)]
termination_by out.length
decreasing_by
  simp only [List.length_drop]
  push_neg at *
  rename_i hh
  have h1 : 0 < out.length := List.length_pos.mpr hh.2
  omega

theorem chunkLoop_mem (out : GoStr) (cs : ℕ) (hcs : cs ≠ 0) (t : GoStr)
    (ht : t ∈ chunkLoop out cs) : t ≠ [] ∧ t.length ≤ cs := by
  rw [chunkLoop_eq] at ht
  split at ht
  · simp at ht
  · next h =>
    push_neg at h
    rcases List.mem_cons.mp ht with h3 | h3
    · subst h3
      constructor
      · simp only [ne_eq, List.take_eq_nil_iff]
        push_neg
        exact ⟨hcs, h.2⟩
      · simp only [List.length_take]
        omega
    · exact chunkLoop_mem (out.drop cs) cs hcs t h3
termination_by out.length
decreasing_by
  simp only [List.length_drop]
  push_neg at *
  rename_i hh
  have h1 : 0 < out.length := List.length_pos.mpr hh.2
  omega

/- ### Stream loop facts -/

theorem streamLoop_no_cancel (out : GoStr) (cs : ℕ) (cancel : ℕ → Bool) (k : ℕ)
    (hnc : ∀ j, cancel j = false) :
    streamLoop out cs cancel k = ((chunkLoop out cs).map deltaChunk, none) := by
  rw [streamLoop_eq]
  by_cases hg : cs = 0 ∨ out = []
  · rw [if_pos hg]
    rw [chunkLoop_eq, if_pos hg]
    rfl
  · rw [if_neg hg, if_neg (by rw [hnc k]; simp), if_neg (by rw [hnc (k + 1)]; simp)]
    simp only [streamLoop_no_cancel (out.drop cs) cs cancel (k + 2) hnc]
    conv_rhs => rw [chunkLoop_eq]
    rw [if_neg hg]
    simp
termination_by out.length
decreasing_by
  simp only [List.length_drop]
  push_neg at hg
  have h1 : 0 < out.length := List.length_pos.mpr hg.2
  omega

theorem streamLoop_none (out : GoStr) (cs : ℕ) (cancel : ℕ → Bool) (k : ℕ)
    (h2 : (streamLoop out cs cancel k).2 = none) :
    (streamLoop out cs cancel k).1 = (chunkLoop out cs).map deltaChunk := by
  by_cases hg : cs = 0 ∨ out = []
  · rw [streamLoop_eq, chunkLoop_eq, if_pos hg, if_pos hg]
    rfl
  · by_cases hk : cancel k = true
    · exfalso
      rw [streamLoop_eq] at h2
      rw [if_neg hg, if_pos hk] at h2
      simp at h2
    · by_cases hk1 : cancel (k + 1) = true
      · exfalso
        rw [streamLoop_eq] at h2
        rw [if_neg hg, if_neg hk, if_pos hk1] at h2
        simp at h2
      · rw [streamLoop_eq] at h2 ⊢
        rw [if_neg hg, if_neg hk, if_neg hk1] at h2 ⊢
        simp only at h2 ⊢
        rw [chunkLoop_eq]
        rw [if_neg hg]
        simp only [List.map_cons, List.cons.injEq, true_and]
        exact streamLoop_none (out.drop cs) cs cancel (k + 2) h2
termination_by out.length
decreasing_by
  simp only [List.length_drop]
  push_neg at hg
  have h1 : 0 < out.length := List.length_pos.mpr hg.2
  omega

theorem streamLoop_types (out : GoStr) (cs : ℕ) (cancel : ℕ → Bool) (k : ℕ) (c : Chunk)
    (hc : c ∈ (streamLoop out cs cancel k).1) :
    c.type = ("output_text.delta").data ∧ c.finishReason = [] := by
  rw [streamLoop_eq] at hc
  split at hc
  · simp at hc
  · split at hc
    · simp at hc
    · split at hc
      · simp only [List.mem_singleton] at hc
        subst hc
        exact ⟨rfl, rfl⟩
      · simp only at hc
        rcases List.mem_cons.mp hc with h3 | h3
        · subst h3
          exact ⟨rfl, rfl⟩
        · exact streamLoop_types (out.drop cs) cs cancel (k + 2) c h3
termination_by out.length
decreasing_by
  simp only [List.length_drop]
  push_neg at *
  rename_i hh
  have h1 : 0 < out.length := List.length_pos.mpr hh.2
  omega

theorem streamLoop_first (out : GoStr) (cs : ℕ) (cancel : ℕ → Bool) (k : ℕ)
    (hcs : cs ≠ 0) (hout : out ≠ []) (hk : cancel k = false) :
    1 ≤ (streamLoop out cs cancel k).1.length := by
  rw [streamLoop_eq]
  rw [if_neg (by push_neg; exact ⟨hcs, hout⟩), if_neg (by rw [hk]; simp)]
  split
  · simp
  · simp

theorem streamLoop_cancelled (out : GoStr) (cs : ℕ) (cancel : ℕ → Bool) (k : ℕ)
    (hcs : cs ≠ 0)
    (hex : ∃ j, k ≤ j ∧ j < k + 2 * numChunks out.length cs ∧ cancel j = true) :
    (streamLoop out cs cancel k).2 = some StreamErr.ctxCanceled := by
  obtain ⟨j, hj1, hj2, hj3⟩ := hex
  rw [streamLoop_eq]
  by_cases hg : cs = 0 ∨ out = []
  · exfalso
    rcases hg with hg | hg
    · exact hcs hg
    · rw [hg] at hj2
      simp only [List.length_nil] at hj2
      unfold numChunks at hj2
      rw [Nat.div_eq_of_lt (by omega)] at hj2
      omega
  · rw [if_neg hg]
    by_cases hk : cancel k = true
    · rw [if_pos hk]
    · rw [if_neg hk]
      by_cases hk1 : cancel (k + 1) = true
      · rw [if_pos hk1]
      · rw [if_neg hk1]
        push_neg at hg
        show (streamLoop (out.drop cs) cs cancel (k + 2)).2 = some StreamErr.ctxCanceled
        apply streamLoop_cancelled (out.drop cs) cs cancel (k + 2) hcs
        refine ⟨j, ?_, ?_, hj3⟩
        · have hjk : j ≠ k := by
            intro he
            rw [he] at hj3
            rw [hj3] at hk
            exact hk rfl
          have hjk1 : j ≠ k + 1 := by
            intro he
            rw [he] at hj3
            rw [hj3] at hk1
            exact hk1 rfl
          omega
        · rw [List.length_drop]
          have hnum := numChunks_succ out.length cs hcs (List.length_pos.mpr hg.2)
          omega
termination_by out.length
decreasing_by
  simp only [List.length_drop]
  push_neg at hg
  have h1 : 0 < out.length := List.length_pos.mpr hg.2
  omega

theorem sseLoop_no_cancel (base : SSEChunk) (content : GoStr) (cs : ℕ)
    (cancel : ℕ → Bool) (k : ℕ) (hnc : ∀ j, cancel j = false) :
    sseLoop base content cs cancel k =
      ((chunkLoop content cs).map fun p => SSEItem.chunk { base with deltaContent := p },
       false) := by
  rw [sseLoop_eq]
  by_cases hg : cs = 0 ∨ content = []
  · rw [if_pos hg]
    rw [chunkLoop_eq, if_pos hg]
    rfl
  · rw [if_neg hg, if_neg (by rw [hnc k]; simp)]
    simp only [sseLoop_no_cancel base (content.drop cs) cs cancel (k + 1) hnc]
    conv_rhs => rw [chunkLoop_eq]
    rw [if_neg hg]
    simp
termination_by content.length
decreasing_by
  simp only [List.length_drop]
  push_neg at hg
  have h1 : 0 < content.length := List.length_pos.mpr hg.2
  omega

/- ### Effective chunk sizes are positive -/

theorem grpcChunkSize_pos (cfg : Config) (o : Oracle) : 1 ≤ grpcChunkSize cfg o := by
  unfold grpcChunkSize
  dsimp only
  split_ifs <;> omega

/- ### Extracting the content texts of a trace -/

theorem grpcDeltaTexts_append (l1 l2 : List Chunk) :
    grpcDeltaTexts (l1 ++ l2) = grpcDeltaTexts l1 ++ grpcDeltaTexts l2 := by
  unfold grpcDeltaTexts
  exact List.filterMap_append l1 l2 _

theorem grpcDeltaTexts_map (l : List GoStr) :
    grpcDeltaTexts (l.map deltaChunk) = l := by
  induction l with
  | nil => rfl
  | cons a tl ih =>
    unfold grpcDeltaTexts at ih ⊢
    simp only [List.map_cons, List.filterMap_cons, deltaChunk, if_pos, ih]

theorem grpcDeltaTexts_done (pt ct lat : Int) :
    grpcDeltaTexts [doneChunk pt ct lat] = [] := by
  unfold grpcDeltaTexts doneChunk
  simp only [List.filterMap_cons, List.filterMap_nil]
  rw [if_neg (by decide)]

theorem grpcDeltaTexts_failed (r : GoStr) :
    grpcDeltaTexts [failedChunk r] = [] := by
  unfold grpcDeltaTexts failedChunk
  simp only [List.filterMap_cons, List.filterMap_nil]
  rw [if_neg (by decide)]

theorem grpcDeltaTexts_all_delta (l : List Chunk)
    (h : ∀ c ∈ l, c.type = ("output_text.delta").data) :
    (grpcDeltaTexts l).length = l.length := by
  induction l with
  | nil => rfl
  | cons a tl ih =>
    unfold grpcDeltaTexts at ih ⊢
    simp only [List.filterMap_cons]
    rw [if_pos (h a (List.mem_cons_self a tl))]
    simp only [List.length_cons]
    rw [ih fun c hc => h c (List.mem_cons_of_mem a hc)]

/- ### Decomposing the gRPC stream handler -/

theorem streamBody_none (cfg : Config) (req : Request) (o : Oracle)
    (h : (streamBody cfg req o).2 = none) :
    streamBody cfg req o =
      ((chunkLoop (grpcOut cfg req o) (grpcChunkSize cfg o).toNat).map deltaChunk ++
        [doneChunk ((ApproxTokens (buildPromptForTokens req)) : Int)
          ((ApproxTokens (grpcOut cfg req o)) : Int) ((o.elapsedMs : Int))], none) := by
  have hsf : shouldFail cfg.errorRate o.failDraw = false := by
    by_contra hx
    rw [Bool.not_eq_false] at hx
    unfold streamBody at h
    rw [if_pos hx] at h
    simp at h
  have hpre : ¬(0 < baseDelayMs cfg + jitterMs cfg o + ttftMs cfg o ∧ o.cancel 0 = true) := by
    intro hx
    unfold streamBody at h
    rw [if_neg (by rw [hsf]; simp), if_pos hx] at h
    simp at h
  unfold streamBody at h ⊢
  rw [if_neg (by rw [hsf]; simp), if_neg hpre] at h ⊢
  rcases heq : (streamLoop (grpcOut cfg req o) (grpcChunkSize cfg o).toNat o.cancel 1).2
    with _ | e
  · simp only [heq]
    rw [streamLoop_none _ _ _ _ heq]
  · simp only [heq] at h
    exact absurd h (by simp)

theorem chatStream_of_body_none (cfg : Config) (req : Request) (o : Oracle)
    (h : (streamBody cfg req o).2 = none) :
    ChatCompletionStream cfg req o = streamBody cfg req o := by
  unfold ChatCompletionStream
  rcases heq : (streamBody cfg req o).2 with _ | e
  · simp only [heq]
  · rw [heq] at h
    simp at h

theorem chatStream_of_body_some (cfg : Config) (req : Request) (o : Oracle) (e : StreamErr)
    (h : (streamBody cfg req o).2 = some e) :
    ChatCompletionStream cfg req o =
      ((streamBody cfg req o).1 ++ [failedChunk (errText e)], some e) := by
  unfold ChatCompletionStream
  simp only [h]

theorem chatStream_no_cancel (cfg : Config) (req : Request) (o : Oracle)
    (hfail : shouldFail cfg.errorRate o.failDraw = false)
    (hnc : ∀ j, o.cancel j = false) :
    ChatCompletionStream cfg req o =
      ((chunkLoop (grpcOut cfg req o) (grpcChunkSize cfg o).toNat).map deltaChunk ++
        [doneChunk ((ApproxTokens (buildPromptForTokens req)) : Int)
          ((ApproxTokens (grpcOut cfg req o)) : Int) ((o.elapsedMs : Int))], none) := by
  have hbody2 : (streamBody cfg req o).2 = none := by
    unfold streamBody
    rw [if_neg (by rw [hfail]; simp),
      if_neg (by intro hx; rw [hnc 0] at hx; simp at hx)]
    simp only [streamLoop_no_cancel _ _ _ _ hnc]
  rw [chatStream_of_body_none cfg req o hbody2, streamBody_none cfg req o hbody2]

/- ### Decomposing the SSE handler -/

theorem sseContentTexts_cons_chunk (c : SSEChunk) (rest : List SSEItem) :
    sseContentTexts (SSEItem.chunk c :: rest) =
      if c.deltaContent = [] then sseContentTexts rest
      else c.deltaContent :: sseContentTexts rest := by
  unfold sseContentTexts
  simp only [List.filterMap_cons]
  split_ifs with h <;> simp [h]

theorem sseContentTexts_map (base : SSEChunk) (l : List GoStr)
    (hl : ∀ t ∈ l, t ≠ []) :
    sseContentTexts (l.map fun p => SSEItem.chunk { base with deltaContent := p }) = l := by
  induction l with
  | nil => rfl
  | cons a tl ih =>
    simp only [List.map_cons]
    rw [sseContentTexts_cons_chunk]
    rw [if_neg (hl a (List.mem_cons_self a tl))]
    rw [ih fun t ht => hl t (List.mem_cons_of_mem a ht)]

theorem sseContentTexts_append (l1 l2 : List SSEItem) :
    sseContentTexts (l1 ++ l2) = sseContentTexts l1 ++ sseContentTexts l2 := by
  unfold sseContentTexts
  exact List.filterMap_append l1 l2 _

theorem sseContentTexts_serve (cfg : Config) (model prompt : GoStr)
    (maxTokens chunkParam : Int) (o : Oracle)
    (hnc : ∀ j, o.cancel j = false) (hcs : (sseChunkSize cfg chunkParam o).toNat ≠ 0) :
    sseContentTexts (serveChatCompletionSSE cfg model prompt maxTokens chunkParam o)
      = chunkLoop
          (BuildOutput prompt maxTokens cfg.echoPrompt cfg.strictTokenMode
            cfg.debugOutputChars cfg.maxOutputChars)
          (sseChunkSize cfg chunkParam o).toNat := by
  unfold serveChatCompletionSSE
  simp only [sseLoop_no_cancel _ _ _ _ _ hnc]
  rw [if_neg (by simp)]
  rw [sseContentTexts_append]
  rw [sseContentTexts_cons_chunk, if_pos rfl]
  have hmapped := sseContentTexts_map
    { id := ("chatcmpl_mock_").data ++ o.randID,
      object := ("chat.completion.chunk").data, created := o.created, model := model }
    (chunkLoop
      (BuildOutput prompt maxTokens cfg.echoPrompt cfg.strictTokenMode
        cfg.debugOutputChars cfg.maxOutputChars)
      (sseChunkSize cfg chunkParam o).toNat)
    (fun t ht => (chunkLoop_mem _ _ hcs t ht).1)
  rw [hmapped]
  rw [sseContentTexts_cons_chunk, if_pos rfl]
  simp [sseContentTexts]

/- ### Randomizer range facts -/

theorem substMaxTokens_pos (m : Int) : 1 ≤ substMaxTokens m := by
  unfold substMaxTokens
  split_ifs <;> omega

theorem pickFrac_range (M : Int) (d : ℕ) (minF maxF : ℚ)
    (hM : 1 ≤ M) (h0 : 0 ≤ minF) (hm1 : minF ≤ 1) (h1 : maxF ≤ 1) :
    1 ≤ pickFrac M d minF maxF ∧ pickFrac M d minF maxF ≤ M := by
  have hMQ : (0 : ℚ) ≤ (M : ℚ) := by
    have : (0 : Int) ≤ M := by omega
    exact_mod_cast this
  have hminle : ⌊(M : ℚ) * minF⌋ ≤ M := by
    have hle : (M : ℚ) * minF ≤ ((M : Int) : ℚ) := by
      calc (M : ℚ) * minF ≤ (M : ℚ) * 1 := by
            exact mul_le_mul_of_nonneg_left hm1 hMQ
        _ = (M : ℚ) := mul_one _
    calc ⌊(M : ℚ) * minF⌋ ≤ ⌊((M : Int) : ℚ)⌋ := Int.floor_le_floor hle
      _ = M := Int.floor_intCast M
  have hmaxle : ⌊(M : ℚ) * maxF⌋ ≤ M := by
    have hle : (M : ℚ) * maxF ≤ ((M : Int) : ℚ) := by
      calc (M : ℚ) * maxF ≤ (M : ℚ) * 1 := by
            exact mul_le_mul_of_nonneg_left h1 hMQ
        _ = (M : ℚ) := mul_one _
    calc ⌊(M : ℚ) * maxF⌋ ≤ ⌊((M : Int) : ℚ)⌋ := Int.floor_le_floor hle
      _ = M := Int.floor_intCast M
  simp only [pickFrac]
  split_ifs <;>
    first
      | omega
      | (have hsh := randIntn_shift d 1 ⌊(M : ℚ) * maxF⌋ (by omega); omega)
      | (have hsh := randIntn_shift d ⌊(M : ℚ) * minF⌋ ⌊(M : ℚ) * maxF⌋ (by omega); omega)

/- ### Token estimate is a ceiling -/

theorem approxTokens_eq_ceil (s : GoStr) :
    ((ApproxTokens s : ℕ) : Int) = ⌈((s.length : ℚ)) / 4⌉ := by
  unfold ApproxTokens
  split_ifs with h
  · rw [h]
    simp
  · set n := s.length with hn
    have hdm := Nat.div_add_mod (n + 3) 4
    have hlt : (n + 3) % 4 < 4 := Nat.mod_lt _ (by norm_num)
    have hq4 : 4 * ((n + 3) / 4) ≤ n + 3 := by omega
    have hq5 : n ≤ 4 * ((n + 3) / 4) := by omega
    rw [eq_comm, Int.ceil_eq_iff]
    constructor
    · rw [lt_div_iff (by norm_num : (0 : ℚ) < 4)]
      have hc : 4 * ((((n + 3) / 4 : ℕ) : Int) : ℚ) ≤ (n : ℚ) + 3 := by exact_mod_cast hq4
      linarith
    · rw [div_le_iff (by norm_num : (0 : ℚ) < 4)]
      have hc : (n : ℚ) ≤ 4 * ((((n + 3) / 4 : ℕ) : Int) : ℚ) := by exact_mod_cast hq5
      linarith

/- ### The implementation's target equals the spec's clamp formula -/

theorem buildTarget_eq_spec (maxTokens : Int) (strictTokenMode : Bool)
    (debugChars maxChars : Int) :
    buildTarget maxTokens strictTokenMode debugChars maxChars
      = specTargetLength strictTokenMode debugChars maxTokens maxChars := by
  unfold buildTarget specTargetLength
  cases strictTokenMode <;>
    · simp only [Bool.false_eq_true, false_and, if_false, eq_self_iff_true, true_and,
        if_true]
      split_ifs <;> omega

/- ## Claim theorems -/

/-- Claim C4: for all combinations of strict-token mode, debug size, token
budget and output cap, the length of `BuildOutput`'s result equals exactly
`clamp(target, floor 64, ceiling maxChars)` — target `debugChars` if
non-zero else 512, or `maxTokens*4` in strict mode with 128 substituted for
non-positive budgets; ceiling defaulting to 4096 at `maxChars = 0` and
absent for negative `maxChars` — never more, never less, for every prompt
and echo setting (even when the echo prefix plus boilerplate already
exceeds the target). -/
theorem buildOutput_length_clamped (prompt : GoStr) (maxTokens : Int)
    (echoPrompt strictTokenMode : Bool) (debugChars maxChars : Int) :
    ((BuildOutput prompt maxTokens echoPrompt strictTokenMode debugChars maxChars).length : Int)
      = specTargetLength strictTokenMode debugChars maxTokens maxChars := by
  rw [buildOutput_length]
  rw [← buildTarget_eq_spec maxTokens strictTokenMode debugChars maxChars]
  have hp := buildTarget_pos maxTokens strictTokenMode debugChars maxChars
  omega

/-- Claim C9: `ApproxTokens text` equals `ceil(runeLength(text) / 4)` for
every text, is 0 on the empty string, and is monotone non-decreasing in the
input rune length. -/
theorem approxTokens_ceil_monotone :
    (∀ s : GoStr, ((ApproxTokens s : ℕ) : Int) = ⌈((s.length : ℚ)) / 4⌉) ∧
    ApproxTokens [] = 0 ∧
    (∀ s t : GoStr, s.length ≤ t.length → ApproxTokens s ≤ ApproxTokens t) := by
  refine ⟨approxTokens_eq_ceil, rfl, ?_⟩
  intro s t hst
  unfold ApproxTokens
  by_cases h1 : s = []
  · simp [h1]
  · have hs : 0 < s.length := List.length_pos.mpr h1
    rw [if_neg h1]
    by_cases h2 : t = []
    · exfalso
      rw [h2] at hst
      simp only [List.length_nil, Nat.le_zero] at hst
      omega
    · rw [if_neg h2]
      exact Nat.div_le_div_right (by omega)

/-- Witness for C9 at concrete inputs. -/
theorem approxTokens_ceil_monotone_witness :
    ("ab").data.length ≤ ("abcde").data.length ∧
    ApproxTokens (("ab").data) ≤ ApproxTokens (("abcde").data) :=
  ⟨by decide, approxTokens_ceil_monotone.2.2 (("ab").data) (("abcde").data) (by decide)⟩

/-- Claim C8: for every budget and prompt length, `pickTargetTokens` returns
an integer in `[1, M]` with `M` the budget (128 substituted for non-positive
budgets), and the value is a `pickFrac` draw inside one of the four
documented fractional ranges of `M` (short 5–22%, normal 22–62%, long
62–92%, maxed 92–100%), floored at 1. -/
theorem pickTargetTokens_bucket_range (maxTokens0 promptRunes : Int) (r : ℚ) (d : ℕ) :
    (1 ≤ pickTargetTokens maxTokens0 promptRunes r d ∧
      pickTargetTokens maxTokens0 promptRunes r d ≤ substMaxTokens maxTokens0) ∧
    ∃ fr, fr ∈ [((5 : ℚ)/100, (22 : ℚ)/100), ((22 : ℚ)/100, (62 : ℚ)/100),
        ((62 : ℚ)/100, (92 : ℚ)/100), ((92 : ℚ)/100, (1 : ℚ))] ∧
      pickTargetTokens maxTokens0 promptRunes r d
        = pickFrac (substMaxTokens maxTokens0) d fr.1 fr.2 := by
  have hchar : ∃ fr, fr ∈ [((5 : ℚ)/100, (22 : ℚ)/100), ((22 : ℚ)/100, (62 : ℚ)/100),
      ((62 : ℚ)/100, (92 : ℚ)/100), ((92 : ℚ)/100, (1 : ℚ))] ∧
      pickTargetTokens maxTokens0 promptRunes r d
        = pickFrac (substMaxTokens maxTokens0) d fr.1 fr.2 := by
    simp only [pickTargetTokens]
    split_ifs <;>
      first
        | exact ⟨((5 : ℚ)/100, (22 : ℚ)/100), by simp, by with_reducible rfl⟩
        | exact ⟨((22 : ℚ)/100, (62 : ℚ)/100), by simp, by with_reducible rfl⟩
        | exact ⟨((62 : ℚ)/100, (92 : ℚ)/100), by simp, by with_reducible rfl⟩
        | exact ⟨((92 : ℚ)/100, (1 : ℚ)), by simp, by with_reducible rfl⟩
  obtain ⟨fr, hmem, heq⟩ := hchar
  refine ⟨?_, ⟨fr, hmem, heq⟩⟩
  rw [heq]
  have hM := substMaxTokens_pos maxTokens0
  fin_cases hmem <;>
    exact pickFrac_range _ _ _ _ hM (by norm_num) (by norm_num) (by norm_num)

/-- Claim C10: an HTTP request to the SSE handler with an empty or absent
prompt parameter yields status 400 and writes no stream data at all — no
role event, no content events, no terminal event, no sentinel. -/
theorem sse_handler_empty_prompt (cfg : Config) (q : SSEQuery) (o : Oracle)
    (h : q.prompt = []) :
    (ChatCompletionSSEHandler cfg q o).status = 400 ∧
    (ChatCompletionSSEHandler cfg q o).items = [] := by
  unfold ChatCompletionSSEHandler
  rw [if_pos h]
  exact ⟨rfl, rfl⟩

/-- Witness for C10 at a concrete query. -/
theorem sse_handler_empty_prompt_witness :
    qEmptyPrompt.prompt = [] ∧
    (ChatCompletionSSEHandler cfgC6b qEmptyPrompt o0).status = 400 :=
  ⟨rfl, (sse_handler_empty_prompt cfgC6b qEmptyPrompt o0 rfl).1⟩

/- ### The unary call on the clean path -/

theorem chatCompletion_ok (cfg : Config) (req : Request) (o : Oracle)
    (hsf : shouldFail cfg.errorRate o.failDraw = false)
    (hc0 : o.cancel 0 = false) :
    ChatCompletion cfg req o = .ok
      { outputText := grpcOut cfg req o, finishReason := ("stop").data,
        promptTokens := ((ApproxTokens (buildPromptForTokens req) : ℕ) : Int),
        completionTokens := ((ApproxTokens (grpcOut cfg req o) : ℕ) : Int),
        totalTokens := ((ApproxTokens (buildPromptForTokens req) : ℕ) : Int)
          + ((ApproxTokens (grpcOut cfg req o) : ℕ) : Int),
        latencyMs := ((o.elapsedMs : ℕ) : Int) } := by
  unfold ChatCompletion
  rw [if_neg (by rw [hsf]; simp)]
  simp only [hc0, Bool.false_eq_true, if_false]

/-- Claim C3: for every request whose stream completes without injected
failure or cancellation, the concatenation of the emitted content chunk
texts reconstructs the synthesized output exactly, the number of content
chunks is `ceil(len(output) / effectiveChunkSize)`, no chunk is empty, no
chunk exceeds the effective chunk size (which is always at least 1), and
the chunks are emitted in the planned order (the emitted sequence equals
the consecutive-slice plan). -/
theorem stream_chunk_plan (cfg : Config) (req : Request) (o : Oracle)
    (h : (ChatCompletionStream cfg req o).2 = none) :
    (grpcDeltaTexts (ChatCompletionStream cfg req o).1).flatten = grpcOut cfg req o ∧
    (grpcDeltaTexts (ChatCompletionStream cfg req o).1).length
      = numChunks (grpcOut cfg req o).length (grpcChunkSize cfg o).toNat ∧
    (∀ t ∈ grpcDeltaTexts (ChatCompletionStream cfg req o).1,
        t ≠ [] ∧ t.length ≤ (grpcChunkSize cfg o).toNat) ∧
    grpcDeltaTexts (ChatCompletionStream cfg req o).1
      = chunkLoop (grpcOut cfg req o) (grpcChunkSize cfg o).toNat := by
  have hcspos := grpcChunkSize_pos cfg o
  have hcs : (grpcChunkSize cfg o).toNat ≠ 0 := by omega
  have hbody : (streamBody cfg req o).2 = none := by
    by_contra hx
    rcases Option.ne_none_iff_exists'.mp hx with ⟨e, he⟩
    rw [chatStream_of_body_some cfg req o e he] at h
    simp at h
  rw [chatStream_of_body_none cfg req o hbody, streamBody_none cfg req o hbody]
  dsimp only
  rw [grpcDeltaTexts_append, grpcDeltaTexts_map, grpcDeltaTexts_done, List.append_nil]
  exact ⟨chunkLoop_flatten _ _ hcs, chunkLoop_length _ _ hcs,
    fun t ht => chunkLoop_mem _ _ hcs t ht, rfl⟩

set_option maxRecDepth 8000 in
/-- Witness for C3 at the stream test's configuration. -/
theorem stream_chunk_plan_witness :
    (ChatCompletionStream cfgC3w reqC3w o0).2 = none ∧
    (grpcDeltaTexts (ChatCompletionStream cfgC3w reqC3w o0).1).flatten
      = grpcOut cfgC3w reqC3w o0 :=
  ⟨by decide, (stream_chunk_plan cfgC3w reqC3w o0 (by decide)).1⟩

/-- Claim C6: with error rate 1 every gRPC call fails — the unary shape
returns only the injected status error (no output), the streaming shape
sends no content chunk and emits exactly one terminal "failed" event
carrying the failure description, with the injection decided before any
other work — and with error rate 0 no call fails absent external
cancellation. -/
theorem error_injection_extremes (cfg : Config) (req : Request) (o : Oracle) :
    (cfg.errorRate = 1 →
      ChatCompletion cfg req o =
        .error (.statusErr (pickGrpcErrorCode cfg.errorMode o.errModeDraw) mockErrMsg) ∧
      ChatCompletionStream cfg req o =
        ([failedChunk (errText (.statusErr (pickGrpcErrorCode cfg.errorMode o.errModeDraw)
            mockErrMsg))],
         some (.statusErr (pickGrpcErrorCode cfg.errorMode o.errModeDraw) mockErrMsg))) ∧
    (cfg.errorRate = 0 → (∀ j, o.cancel j = false) →
      (∃ resp, ChatCompletion cfg req o = .ok resp) ∧
      (ChatCompletionStream cfg req o).2 = none) := by
  constructor
  · intro h1
    have hsf : shouldFail cfg.errorRate o.failDraw = true := by
      unfold shouldFail
      rw [h1]
      norm_num
    have hb : streamBody cfg req o =
        ([], some (.statusErr (pickGrpcErrorCode cfg.errorMode o.errModeDraw) mockErrMsg)) := by
      unfold streamBody
      rw [if_pos hsf]
    constructor
    · unfold ChatCompletion
      rw [if_pos hsf]
    · rw [chatStream_of_body_some cfg req o _ (by rw [hb]), hb]
      simp
  · intro h0 hnc
    have hsf : shouldFail cfg.errorRate o.failDraw = false := by
      unfold shouldFail
      rw [h0]
      norm_num
    exact ⟨⟨_, chatCompletion_ok cfg req o hsf (hnc 0)⟩,
      by rw [chatStream_no_cancel cfg req o hsf hnc]⟩

/-- Witness for C6: rate 1 always fails with the selected class; rate 0
completes the stream. -/
theorem error_injection_extremes_witness :
    ChatCompletion cfgC6a req0 o0
      = .error (.statusErr GrpcCode.internal mockErrMsg) ∧
    (ChatCompletionStream cfgC6b req0 o0).2 = none := by
  constructor
  · have h := ((error_injection_extremes cfgC6a req0 o0).1 rfl).1
    have hcode : pickGrpcErrorCode cfgC6a.errorMode o0.errModeDraw = GrpcCode.internal := by
      decide
    rw [h, hcode]
  · exact (((error_injection_extremes cfgC6b req0 o0).2 rfl) (fun j => rfl)).2

set_option maxRecDepth 8000 in
/-- Claim C7: the unary scenario — prompt "tell me a joke", budget 12,
strict token mode, zero delays, zero error rate — returns output text equal
to `BuildOutput(prompt, 12, false, true, 0, default-cap)`, finish reason
"stop", non-negative latency, and token totals computed with `ApproxTokens`
satisfying `total = prompt + completion`. -/
theorem unary_joke_request (o : Oracle) (hc : o.cancel 0 = false) :
    ∃ resp, ChatCompletion cfgC7 reqC7 o = .ok resp ∧
      resp.outputText = BuildOutput (buildPromptForTokens reqC7) 12 false true 0 0 ∧
      resp.finishReason = ("stop").data ∧
      0 ≤ resp.latencyMs ∧
      resp.promptTokens = ((ApproxTokens (buildPromptForTokens reqC7) : ℕ) : Int) ∧
      resp.completionTokens = ((ApproxTokens resp.outputText : ℕ) : Int) ∧
      resp.totalTokens = resp.promptTokens + resp.completionTokens := by
  have hsf : shouldFail cfgC7.errorRate o.failDraw = false := by
    unfold shouldFail cfgC7
    norm_num
  refine ⟨_, chatCompletion_ok cfgC7 reqC7 o hsf hc, ?_, rfl,
    Int.natCast_nonneg _, rfl, rfl, rfl⟩
  show grpcOut cfgC7 reqC7 o = BuildOutput (buildPromptForTokens reqC7) 12 false true 0 0
  unfold grpcOut grpcEffTokens grpcMaxTokens
  rfl

/-- Witness for C7 with the deterministic oracle. -/
theorem unary_joke_request_witness :
    o0.cancel 0 = false ∧
    ∃ resp, ChatCompletion cfgC7 reqC7 o0 = .ok resp ∧
      resp.outputText = BuildOutput (buildPromptForTokens reqC7) 12 false true 0 0 ∧
      resp.finishReason = ("stop").data ∧
      0 ≤ resp.latencyMs ∧
      resp.promptTokens = ((ApproxTokens (buildPromptForTokens reqC7) : ℕ) : Int) ∧
      resp.completionTokens = ((ApproxTokens resp.outputText : ℕ) : Int) ∧
      resp.totalTokens = resp.promptTokens + resp.completionTokens :=
  ⟨rfl, unary_joke_request o0 rfl⟩

/-- Claim C2 (amended): whenever the stream body aborts with a non-nil
error — including when the abort is the observed cancellation — the
deferred finalizer still attempts exactly one best-effort terminal "failed"
event carrying the error description, after everything the body already
sent. -/
theorem abort_appends_failed_event (cfg : Config) (req : Request) (o : Oracle)
    (e : StreamErr) (h : (streamBody cfg req o).2 = some e) :
    ChatCompletionStream cfg req o =
      ((streamBody cfg req o).1 ++ [failedChunk (errText e)], some e) :=
  chatStream_of_body_some cfg req o e h

set_option maxRecDepth 8000 in
/-- Counterexample to C2 as stated: at this concretely cancelled stream the
abort is the cancellation itself, yet after the cancellation is observed a
further send is attempted — the trace ends with a "failed" event carrying
the cancellation description (here: one delta was sent, then cancellation
was observed, and the captured trace still has a second, "failed", event). -/
theorem cancelled_stream_still_sends_failed :
    (ChatCompletionStream cfgC2 reqC2 oC2).2 = some StreamErr.ctxCanceled ∧
    (ChatCompletionStream cfgC2 reqC2 oC2).1.length = 2 ∧
    (ChatCompletionStream cfgC2 reqC2 oC2).1.getLast?
      = some (failedChunk (("context canceled").data)) := by
  refine ⟨by decide, by decide, by decide⟩

set_option maxRecDepth 8000 in
/-- Witness for C2 (amended) at the concrete cancelled stream. -/
theorem abort_appends_failed_event_witness :
    (streamBody cfgC2 reqC2 oC2).2 = some StreamErr.ctxCanceled ∧
    ChatCompletionStream cfgC2 reqC2 oC2 =
      ((streamBody cfgC2 reqC2 oC2).1 ++ [failedChunk (errText StreamErr.ctxCanceled)],
       some StreamErr.ctxCanceled) :=
  ⟨by decide, abort_appends_failed_event cfgC2 reqC2 oC2 StreamErr.ctxCanceled (by decide)⟩

/-- Claim C5: if the context is cancelled mid-stream — the first two
cancellation checks pass, so the first non-empty content chunk goes out,
and cancellation is observed at some later check the loop performs before
completion — then at least one content chunk was sent, the cancellation
outcome is propagated to the caller, no terminal "done" event is sent, and
the finish reason of the last captured event is not "stop". -/
theorem cancel_mid_stream (cfg : Config) (req : Request) (o : Oracle)
    (hfail : shouldFail cfg.errorRate o.failDraw = false)
    (h0 : o.cancel 0 = false) (h1 : o.cancel 1 = false)
    (hc : ∃ j, 2 ≤ j ∧
      j < 1 + 2 * numChunks (grpcOut cfg req o).length (grpcChunkSize cfg o).toNat ∧
      o.cancel j = true) :
    1 ≤ (grpcDeltaTexts (ChatCompletionStream cfg req o).1).length ∧
    (ChatCompletionStream cfg req o).2 = some StreamErr.ctxCanceled ∧
    (∀ c ∈ (ChatCompletionStream cfg req o).1, c.type ≠ ("output_text.done").data) ∧
    (∀ c, (ChatCompletionStream cfg req o).1.getLast? = some c →
      c.finishReason ≠ ("stop").data) := by
  have hcspos := grpcChunkSize_pos cfg o
  have hcs : (grpcChunkSize cfg o).toNat ≠ 0 := by omega
  have hout : grpcOut cfg req o ≠ [] := buildOutput_ne_nil _ _ _ _ _ _
  have hloop : (streamLoop (grpcOut cfg req o) (grpcChunkSize cfg o).toNat o.cancel 1).2
      = some StreamErr.ctxCanceled := by
    apply streamLoop_cancelled _ _ _ _ hcs
    obtain ⟨j, hj1, hj2, hj3⟩ := hc
    exact ⟨j, by omega, by omega, hj3⟩
  have hbody : streamBody cfg req o =
      ((streamLoop (grpcOut cfg req o) (grpcChunkSize cfg o).toNat o.cancel 1).1,
       some StreamErr.ctxCanceled) := by
    unfold streamBody
    rw [if_neg (by rw [hfail]; simp),
      if_neg (by intro hx; rw [h0] at hx; simp at hx)]
    simp only [hloop]
  have hch := chatStream_of_body_some cfg req o StreamErr.ctxCanceled (by rw [hbody])
  rw [hch, hbody]
  dsimp only
  refine ⟨?_, rfl, ?_, ?_⟩
  · rw [grpcDeltaTexts_append, grpcDeltaTexts_failed, List.append_nil]
    rw [grpcDeltaTexts_all_delta _ (fun c hcm => (streamLoop_types _ _ _ _ c hcm).1)]
    exact streamLoop_first _ _ _ _ hcs hout h1
  · intro c hcm
    rcases List.mem_append.mp hcm with hm | hm
    · rw [(streamLoop_types _ _ _ _ c hm).1]
      decide
    · simp only [List.mem_singleton] at hm
      subst hm
      decide
  · intro c hlast
    rw [List.getLast?_concat] at hlast
    injection hlast with hlast
    subst hlast
    decide

set_option maxRecDepth 8000 in
/-- Witness for C5: cancellation observed at the third check (after the
first 16-char delta of the 64-char output was sent). -/
theorem cancel_mid_stream_witness :
    (oC5.cancel 0 = false ∧ oC5.cancel 1 = false ∧ 2 ≤ 2 ∧
      2 < 1 + 2 * numChunks (grpcOut cfgC5 reqC5 oC5).length
        (grpcChunkSize cfgC5 oC5).toNat ∧ oC5.cancel 2 = true) ∧
    (1 ≤ (grpcDeltaTexts (ChatCompletionStream cfgC5 reqC5 oC5).1).length ∧
      (ChatCompletionStream cfgC5 reqC5 oC5).2 = some StreamErr.ctxCanceled) := by
  have h := cancel_mid_stream cfgC5 reqC5 oC5 (by decide) (by decide) (by decide)
    ⟨2, by decide, by decide, by decide⟩
  exact ⟨⟨by decide, by decide, by decide, by decide, by decide⟩, ⟨h.1, h.2.1⟩⟩

/-- Claim C1 (amended): for identical core inputs — the same normalized
prompt text reaching the synthesizer, the same positive max-token budget,
the same configuration with randomization disabled, agreeing effective
chunk sizes — and absent error injection and cancellation (neither of which
the SSE path implements), the gRPC streaming path and the HTTP
text-event-stream path produce the identical ordered sequence of content
chunk texts, whose concatenation is the identical synthesized output text. -/
theorem sse_grpc_stream_agreement (cfg : Config) (req : Request)
    (model prompt : GoStr) (chunkParam : Int) (o1 o2 : Oracle)
    (hrand : cfg.randomize = false)
    (hfail : shouldFail cfg.errorRate o1.failDraw = false)
    (hnc1 : ∀ j, o1.cancel j = false) (hnc2 : ∀ j, o2.cancel j = false)
    (hprompt : buildPromptForTokens req = prompt)
    (hmt : 0 < req.maxTokens)
    (hcs : sseChunkSize cfg chunkParam o2 = grpcChunkSize cfg o1) :
    sseContentTexts (serveChatCompletionSSE cfg model prompt req.maxTokens chunkParam o2)
      = grpcDeltaTexts (ChatCompletionStream cfg req o1).1 ∧
    (grpcDeltaTexts (ChatCompletionStream cfg req o1).1).flatten
      = BuildOutput prompt req.maxTokens cfg.echoPrompt cfg.strictTokenMode
          cfg.debugOutputChars cfg.maxOutputChars := by
  have hcspos := grpcChunkSize_pos cfg o1
  have hcs0 : (sseChunkSize cfg chunkParam o2).toNat ≠ 0 := by
    rw [hcs]
    omega
  have hout : grpcOut cfg req o1
      = BuildOutput prompt req.maxTokens cfg.echoPrompt cfg.strictTokenMode
          cfg.debugOutputChars cfg.maxOutputChars := by
    unfold grpcOut grpcEffTokens grpcMaxTokens
    rw [hrand, hprompt]
    simp only [Bool.false_eq_true, if_false]
    rw [if_neg (by omega)]
  have hdeltas : grpcDeltaTexts (ChatCompletionStream cfg req o1).1
      = chunkLoop (grpcOut cfg req o1) (grpcChunkSize cfg o1).toNat := by
    rw [chatStream_no_cancel cfg req o1 hfail hnc1]
    dsimp only
    rw [grpcDeltaTexts_append, grpcDeltaTexts_map, grpcDeltaTexts_done, List.append_nil]
  constructor
  · rw [sseContentTexts_serve cfg model prompt req.maxTokens chunkParam o2 hnc2 hcs0,
      hdeltas, hout, hcs]
  · rw [hdeltas, ← hout]
    exact chunkLoop_flatten _ _ (by omega)

set_option maxRecDepth 30000 in
/-- Counterexample to C1 as stated: identical inputs with a zero (unset)
token budget — the same prompt, configuration with `DefaultTokens = 42`,
strict token mode, effective chunk size 7 on both paths, no randomization,
no failure, no cancellation — yet the two paths produce different content
chunk sequences: the gRPC path substitutes the configured default budget 42
(168-char output, 24 chunks), while the SSE path hands the zero budget to
the synthesizer unnormalized, which substitutes 128 (512-char output, 74
chunks). -/
theorem sse_grpc_divergence_zero_budget :
    sseChunkSize cfgC1x 7 o0 = grpcChunkSize cfgC1x o0 ∧
    sseContentTexts (serveChatCompletionSSE cfgC1x (("mock-sse").data)
        (buildPromptForTokens reqC1x) reqC1x.maxTokens 7 o0)
      ≠ grpcDeltaTexts (ChatCompletionStream cfgC1x reqC1x o0).1 := by
  refine ⟨by decide, by decide⟩

set_option maxRecDepth 8000 in
/-- Witness for C1 (amended) at the SSE alignment test's inputs. -/
theorem sse_grpc_stream_agreement_witness :
    (0 < reqC1w.maxTokens ∧ sseChunkSize cfgC1w 7 o0 = grpcChunkSize cfgC1w o0) ∧
    sseContentTexts (serveChatCompletionSSE cfgC1w (("mock-model").data)
        (buildPromptForTokens reqC1w) reqC1w.maxTokens 7 o0)
      = grpcDeltaTexts (ChatCompletionStream cfgC1w reqC1w o0).1 :=
  ⟨⟨by decide, by decide⟩,
   (sse_grpc_stream_agreement cfgC1w reqC1w (("mock-model").data)
      (buildPromptForTokens reqC1w) 7 o0 o0 rfl (by decide) (fun _ => rfl) (fun _ => rfl)
      rfl (by decide) (by decide)).1⟩

end LlmSim
